import Mathlib

/-!
Shallow embedding of the calendar conversion engine of
`src/utils/ethiopianDateUtils.ts` (React Ethiopian Date Picker).

JavaScript numeric semantics: every quantity appearing in the engine is an
integer, so numbers are modelled as `Int`.  `Math.floor(a / b)` is `Int.fdiv`
(floor division) and the JavaScript remainder operator `%` is `Int.tmod`
(truncating remainder, sign of the dividend).  The host `Date` object is
modelled, following the specification, as a plain UTC-normalised calendar
triple (year, month 1-12, day) as read back by
`getFullYear` / `getMonth() + 1` / `getDate`; `getUTCDay` is the
proleptic-Gregorian weekday (Sunday = 0), obtained from the linear day
number (day number 1, January 1 of year 1, is a Monday, so the weekday is
the day number mod 7).
-/

/-- Ethiopian date triple (the `EtDate` interface / `EthiopianDate` class):
1-indexed day, month (13 = Pagume) and year. -/
structure EtDate where
  Day : Int
  Month : Int
  Year : Int
deriving DecidableEq, Repr

/-- Gregorian calendar day: the host `Date`, UTC-normalised, keyed by
year, month (1-12) and day of month. -/
structure GregDate where
  year : Int
  month : Int
  day : Int
deriving DecidableEq, Repr

/-- `ETHIOPIAN_CALENDAR_OFFSET`: day-number skew between the two calendars. -/
def ETHIOPIAN_CALENDAR_OFFSET : Int := 2431

/-- `ETHIOPIAN_DAYS_IN_MONTH`: length of every Ethiopian month except Pagume. -/
def ETHIOPIAN_DAYS_IN_MONTH : Int := 30

/-- `ETHIOPIAN_LEAP_YEAR_DAYS`: length of Pagume in an Ethiopian leap year. -/
def ETHIOPIAN_LEAP_YEAR_DAYS : Int := 6

/-- `ETHIOPIAN_NORMAL_YEAR_DAYS`: length of Pagume in a normal Ethiopian year. -/
def ETHIOPIAN_NORMAL_YEAR_DAYS : Int := 5

/-- `isEthiopianLeapYear`: Ethiopian years congruent to 3 mod 4 are leap. -/
def isEthiopianLeapYear (year : Int) : Bool :=
  year.tmod 4 == 3

/-- `getEthiopianMonthLength`: 30 days for months 1-12; Pagume has 6 days in
a leap year and 5 otherwise. -/
def getEthiopianMonthLength (month year : Int) : Int :=
  if month = 13 then
    if isEthiopianLeapYear year then ETHIOPIAN_LEAP_YEAR_DAYS
    else ETHIOPIAN_NORMAL_YEAR_DAYS
  else ETHIOPIAN_DAYS_IN_MONTH

/-- `isLeapYearGr`: standard Gregorian leap-year rule. -/
def isLeapYearGr (year : Int) : Bool :=
  year.tmod 4 == 0 && (year.tmod 100 != 0 || year.tmod 400 == 0)

/-- `getDayNumber`: Ethiopian date to linear day number
(`floor(Year/4)*1461 + (Year mod 4)*365 + (Month-1)*30 + Day - 1`). -/
def getDayNumber (ethiopianDate : EtDate) : Int :=
  let leapYearCycles := ethiopianDate.Year.fdiv 4
  let remainingYears := ethiopianDate.Year.tmod 4
  leapYearCycles * 1461 + remainingYears * 365 +
    (ethiopianDate.Month - 1) * ETHIOPIAN_DAYS_IN_MONTH + ethiopianDate.Day - 1

/-- `getGregorianMonthLength`: the `switch` on the month index. -/
def getGregorianMonthLength (index year : Int) : Int :=
  if index = 1 ∨ index = 3 ∨ index = 5 ∨ index = 7 ∨ index = 8 ∨
      index = 10 ∨ index = 12 then 31
  else if index = 2 then (if isLeapYearGr year then 29 else 28)
  else 30

/-- The month/day `while` loop at the end of `gregorianDateFromDayNo`:
starting at `month`, subtract the current month's length while more days
remain.  Every iteration consumes at least 28 days, so `d.toNat` iterations
always suffice; the fuel argument only makes the recursion structural and
never changes the computed value (when the fuel runs out, `d ≤ 0`, and the
loop would have stopped immediately anyway). -/
def monthWalkAux (year : Int) : Nat → Int → Int → Int × Int
  | 0, month, d => (month, d)
  | fuel+1, month, d =>
    if d ≤ getGregorianMonthLength month year then (month, d)
    else monthWalkAux year fuel (month + 1) (d - getGregorianMonthLength month year)

/-- The month/day loop of `gregorianDateFromDayNo`, entered with the day
count `d` remaining inside the resolved year. -/
def monthWalk (month d year : Int) : Int × Int :=
  monthWalkAux year d.toNat month d

/-- `gregorianDateFromDayNo`: linear day number to Gregorian date, peeling
400-year, capped 100-year, 4-year and capped 1-year cycles, with the
zero-remainder cases resolving to December 31 of the period just finished. -/
def gregorianDateFromDayNo (dayNumber : Int) : GregDate :=
  let fourHundredYearPeriods := dayNumber.fdiv 146097
  let d1 := dayNumber.tmod 146097
  if d1 = 0 then ⟨400 * fourHundredYearPeriods, 12, 31⟩
  else
    let hundredYearPeriods := min (d1.fdiv 36524) 3
    let d2 := d1 - hundredYearPeriods * 36524
    if d2 = 0 then ⟨400 * fourHundredYearPeriods + 100 * hundredYearPeriods, 12, 31⟩
    else
      let fourYearPeriods := d2.fdiv 1461
      let d3 := d2.tmod 1461
      if d3 = 0 then
        ⟨400 * fourHundredYearPeriods + 100 * hundredYearPeriods +
          4 * fourYearPeriods, 12, 31⟩
      else
        let singleYears := min (d3.fdiv 365) 3
        let d4 := d3 - singleYears * 365
        if d4 = 0 then
          ⟨400 * fourHundredYearPeriods + 100 * hundredYearPeriods +
            4 * fourYearPeriods + singleYears, 12, 31⟩
        else
          let year := 1 + 400 * fourHundredYearPeriods + 100 * hundredYearPeriods +
            4 * fourYearPeriods + singleYears
          let md := monthWalk 1 d4 year
          ⟨year, md.1, md.2⟩

/-- `createEthiopianDate`: linear day number to Ethiopian date, special-casing
day 1460 of a 1461-day cycle (the 6th epagomenal day of the leap year). -/
def createEthiopianDate (dayNumber : Int) : EtDate :=
  let leapYearCycles := dayNumber.fdiv 1461
  let remainingDays := dayNumber.tmod 1461
  let yearsInCycle := remainingDays.fdiv 365
  let daysInYear := remainingDays.tmod 365
  if remainingDays ≠ 1460 then
    ⟨daysInYear.tmod 30 + 1, daysInYear.fdiv 30 + 1, leapYearCycles * 4 + yearsInCycle⟩
  else
    ⟨6, 13, leapYearCycles * 4 + yearsInCycle - 1⟩

/-- The `for` loop of `addGregorianMonths`, summing the lengths of months
`1, …, k` of `year` (as a structural recursion on the month count). -/
def sumGregorianMonths (year : Int) : Nat → Int
  | 0 => 0
  | k+1 => sumGregorianMonths year k + getGregorianMonthLength ((k : Int) + 1) year

/-- `addGregorianMonths month year`: days in the whole months strictly
before `month` in `year`. -/
def addGregorianMonths (month year : Int) : Int :=
  sumGregorianMonths year (month - 1).toNat

/-- `getGregorianDayNumber`: Gregorian date to linear day number (days in
all previous years via the 4/100/400 leap count, plus days in the current
year). -/
def getGregorianDayNumber (gregorianDate : GregDate) : Int :=
  let previousYears := gregorianDate.year - 1
  let leapYears := previousYears.fdiv 4 - previousYears.fdiv 100 + previousYears.fdiv 400
  let nonLeapYears := previousYears - leapYears
  let daysInPreviousYears := leapYears * 366 + nonLeapYears * 365
  let daysInCurrentYear :=
    addGregorianMonths gregorianDate.month gregorianDate.year + gregorianDate.day
  daysInPreviousYears + daysInCurrentYear

/-- `toEthiopian`: Gregorian date to Ethiopian date through the shared
day-number representation. -/
def toEthiopian (gregorianDate : GregDate) : EtDate :=
  createEthiopianDate (getGregorianDayNumber gregorianDate - ETHIOPIAN_CALENDAR_OFFSET)

/-- `toGregorian`: Ethiopian date to Gregorian date through the shared
day-number representation. -/
def toGregorian (ethiopianDate : EtDate) : GregDate :=
  gregorianDateFromDayNo (getDayNumber ethiopianDate + ETHIOPIAN_CALENDAR_OFFSET)

/-- `Date.getUTCDay` of the modelled UTC-normalised day: Sunday = 0, and day
number 1 (January 1 of year 1, proleptic Gregorian) is a Monday. -/
def getUTCDay (gregorianDate : GregDate) : Int :=
  (getGregorianDayNumber gregorianDate) % 7

/-- `getMonthStartDay`: `((toGregorian({1,month,year}).getUTCDay() || 7) % 7) + 1`. -/
def getMonthStartDay (month year : Int) : Int :=
  let gregorianDate := toGregorian ⟨1, month, year⟩
  let w := getUTCDay gregorianDate
  (if w = 0 then (7 : Int) else w).tmod 7 + 1

/-- `isValidEthiopianDate`: year within 1000-3000, month within 1-13, day
within 1 to the month's length. -/
def isValidEthiopianDate (ethiopianDate : EtDate) : Bool :=
  if ethiopianDate.Year < 1000 ∨ ethiopianDate.Year > 3000 then false
  else if ethiopianDate.Month < 1 ∨ ethiopianDate.Month > 13 then false
  else if ethiopianDate.Day < 1 then false
  else if ethiopianDate.Day >
      getEthiopianMonthLength ethiopianDate.Month ethiopianDate.Year then false
  else true

/-- The `Invalid Ethiopian date D-M-Y` message thrown by
`addYearsToEthiopianDate` and `addDaysToEthiopianDate`. -/
def invalidEthiopianDateMessage (ethiopianDate : EtDate) : String :=
  "Invalid Ethiopian date " ++ toString ethiopianDate.Day ++ "-" ++
    toString ethiopianDate.Month ++ "-" ++ toString ethiopianDate.Year

/-- `addYearsToEthiopianDate`: throws on an invalid input; adds to the year,
clamping Pagume 6 down to Pagume 5 when the target year is not leap.
The thrown `Error` is modelled as the `Except.error` case. -/
def addYearsToEthiopianDate (ethiopianDate : EtDate) (yearsToAdd : Int) :
    Except String EtDate :=
  if isValidEthiopianDate ethiopianDate then
    let newYear := ethiopianDate.Year + yearsToAdd
    if ethiopianDate.Month = 13 ∧ ethiopianDate.Day = 6 then
      if ¬ (isEthiopianLeapYear newYear = true) then
        Except.ok ⟨5, ethiopianDate.Month, newYear⟩
      else
        Except.ok ⟨ethiopianDate.Day, ethiopianDate.Month, newYear⟩
    else
      Except.ok ⟨ethiopianDate.Day, ethiopianDate.Month, newYear⟩
  else
    Except.error (invalidEthiopianDateMessage ethiopianDate)

/-- `addDaysToEthiopianDate`: throws on an invalid input; otherwise
`createEthiopianDate(getDayNumber(date) + 1 + daysToAdd)` (the `+ 1` is
exactly what the source computes). -/
def addDaysToEthiopianDate (ethiopianDate : EtDate) (daysToAdd : Int) :
    Except String EtDate :=
  if isValidEthiopianDate ethiopianDate then
    Except.ok (createEthiopianDate (getDayNumber ethiopianDate + 1 + daysToAdd))
  else
    Except.error (invalidEthiopianDateMessage ethiopianDate)

/-- `compareEthiopianDates`: lexicographic comparison on (Year, Month, Day). -/
def compareEthiopianDates (firstDate secondDate : EtDate) : Int :=
  if firstDate.Year < secondDate.Year then -1
  else if firstDate.Year > secondDate.Year then 1
  else if firstDate.Month < secondDate.Month then -1
  else if firstDate.Month > secondDate.Month then 1
  else if firstDate.Day < secondDate.Day then -1
  else if firstDate.Day > secondDate.Day then 1
  else 0

/-! ### Arithmetic facts about the embedded definitions -/

theorem getGregorianMonthLength_ge (index year : Int) :
    28 ≤ getGregorianMonthLength index year := by
  unfold getGregorianMonthLength
  split_ifs <;> omega

theorem getGregorianMonthLength_le (index year : Int) :
    getGregorianMonthLength index year ≤ 31 := by
  unfold getGregorianMonthLength
  split_ifs <;> omega

theorem isLeapYearGr_iff (year : Int) (hy : 0 ≤ year) :
    isLeapYearGr year = true ↔ (year % 4 = 0 ∧ (year % 100 ≠ 0 ∨ year % 400 = 0)) := by
  simp only [isLeapYearGr, Int.tmod_eq_emod hy (by norm_num : (0:Int) ≤ 4),
    Int.tmod_eq_emod hy (by norm_num : (0:Int) ≤ 100),
    Int.tmod_eq_emod hy (by norm_num : (0:Int) ≤ 400),
    Bool.and_eq_true, Bool.or_eq_true, beq_iff_eq, bne_iff_ne, ne_eq]

theorem isEthiopianLeapYear_iff (year : Int) (hy : 0 ≤ year) :
    isEthiopianLeapYear year = true ↔ year % 4 = 3 := by
  simp only [isEthiopianLeapYear, Int.tmod_eq_emod hy (by norm_num : (0:Int) ≤ 4),
    beq_iff_eq]

theorem addGregorianMonths_one (year : Int) : addGregorianMonths 1 year = 0 := rfl

theorem addGregorianMonths_succ (m year : Int) (hm : 1 ≤ m) :
    addGregorianMonths (m + 1) year =
      addGregorianMonths m year + getGregorianMonthLength m year := by
  unfold addGregorianMonths
  have h1 : (m + 1 - 1).toNat = (m - 1).toNat + 1 := by omega
  rw [h1]
  show sumGregorianMonths year ((m - 1).toNat + 1) = _
  rw [sumGregorianMonths]
  have h2 : ((((m : Int) - 1).toNat : Int) + 1) = m := by omega
  rw [h2]

theorem sumGregorianMonths_mono (year : Int) {k1 k2 : Nat} (h : k1 ≤ k2) :
    sumGregorianMonths year k1 ≤ sumGregorianMonths year k2 := by
  induction k2 with
  | zero =>
    have h0 : k1 = 0 := by omega
    rw [h0]
  | succ k ih =>
    rcases Nat.lt_or_ge k1 (k + 1) with h1 | h1
    · have := ih (by omega)
      have hlen := getGregorianMonthLength_ge ((k : Int) + 1) year
      calc sumGregorianMonths year k1 ≤ sumGregorianMonths year k := this
        _ ≤ sumGregorianMonths year k + getGregorianMonthLength ((k : Int) + 1) year := by omega
        _ = sumGregorianMonths year (k + 1) := by rw [sumGregorianMonths]
    · have : k1 = k + 1 := by omega
      rw [this]

theorem addGregorianMonths_nonneg (m year : Int) : 0 ≤ addGregorianMonths m year := by
  have := sumGregorianMonths_mono year (Nat.zero_le (m - 1).toNat)
  simpa [addGregorianMonths, sumGregorianMonths] using this

theorem addGregorianMonths_mono (m1 m2 year : Int) (h : m1 ≤ m2) :
    addGregorianMonths m1 year ≤ addGregorianMonths m2 year := by
  unfold addGregorianMonths
  exact sumGregorianMonths_mono year (by omega)

theorem addGregorianMonths_twelve (year : Int) :
    addGregorianMonths 12 year = 334 + (if isLeapYearGr year then 1 else 0) := by
  show sumGregorianMonths year (((12 : Int) - 1).toNat) = _
  norm_num [sumGregorianMonths, getGregorianMonthLength]
  split_ifs <;> norm_num

theorem addGregorianMonths_thirteen (year : Int) :
    addGregorianMonths 13 year = 365 + (if isLeapYearGr year then 1 else 0) := by
  have h := addGregorianMonths_succ 12 year (by norm_num)
  have h12 : getGregorianMonthLength 12 year = 31 := by
    norm_num [getGregorianMonthLength]
  rw [show (12 : Int) + 1 = 13 by norm_num] at h
  rw [h, addGregorianMonths_twelve, h12]
  split_ifs <;> norm_num

theorem getGregorianDayNumber_eq (g : GregDate) :
    getGregorianDayNumber g =
      365 * (g.year - 1) +
        ((g.year - 1).fdiv 4 - (g.year - 1).fdiv 100 + (g.year - 1).fdiv 400) +
        (addGregorianMonths g.month g.year + g.day) := by
  simp only [getGregorianDayNumber]
  ring

theorem totalDays_succ (y : Int) (hy : 1 ≤ y) :
    365 * y + y / 4 - y / 100 + y / 400 =
      365 * (y - 1) + ((y - 1) / 4 - (y - 1) / 100 + (y - 1) / 400) +
        365 + (if isLeapYearGr y then 1 else 0) := by
  by_cases h : isLeapYearGr y = true
  · rw [if_pos h]
    rw [isLeapYearGr_iff y (by omega)] at h
    rcases h with ⟨h4, h100 | h400⟩ <;> omega
  · rw [if_neg h]
    rw [isLeapYearGr_iff y (by omega)] at h
    omega

theorem dayNumber_dec31 (y : Int) (hy : 1 ≤ y) :
    getGregorianDayNumber ⟨y, 12, 31⟩ = 365 * y + y / 4 - y / 100 + y / 400 := by
  rw [getGregorianDayNumber_eq]
  simp only
  rw [addGregorianMonths_twelve,
    Int.fdiv_eq_ediv _ (by norm_num : (0:Int) ≤ 4),
    Int.fdiv_eq_ediv _ (by norm_num : (0:Int) ≤ 100),
    Int.fdiv_eq_ediv _ (by norm_num : (0:Int) ≤ 400),
    totalDays_succ y hy]
  ring

theorem monthWalkAux_spec (year : Int) (fuel : Nat) :
    ∀ m d : Int, 1 ≤ m → 1 ≤ d → d.toNat ≤ fuel →
      1 ≤ (monthWalkAux year fuel m d).2 ∧
      (monthWalkAux year fuel m d).2 ≤
        getGregorianMonthLength (monthWalkAux year fuel m d).1 year ∧
      m ≤ (monthWalkAux year fuel m d).1 ∧
      addGregorianMonths (monthWalkAux year fuel m d).1 year +
          (monthWalkAux year fuel m d).2 =
        addGregorianMonths m year + d := by
  induction fuel with
  | zero =>
    intro m d _ hd hf
    exact absurd hf (by omega)
  | succ fuel ih =>
    intro m d hm hd hf
    rw [monthWalkAux]
    split_ifs with hle
    · exact ⟨hd, hle, le_refl m, rfl⟩
    · have hlen := getGregorianMonthLength_ge m year
      have hd' : 1 ≤ d - getGregorianMonthLength m year := by omega
      have hf' : (d - getGregorianMonthLength m year).toNat ≤ fuel := by omega
      obtain ⟨h1, h2, h3, h4⟩ := ih (m + 1) (d - getGregorianMonthLength m year)
        (by omega) hd' hf'
      refine ⟨h1, h2, by omega, ?_⟩
      rw [h4, addGregorianMonths_succ m year hm]
      ring

theorem monthWalk_spec (m d year : Int) (hm : 1 ≤ m) (hd : 1 ≤ d) :
    1 ≤ (monthWalk m d year).2 ∧
    (monthWalk m d year).2 ≤ getGregorianMonthLength (monthWalk m d year).1 year ∧
    m ≤ (monthWalk m d year).1 ∧
    addGregorianMonths (monthWalk m d year).1 year + (monthWalk m d year).2 =
      addGregorianMonths m year + d :=
  monthWalkAux_spec year d.toNat m d hm hd le_rfl

theorem dayNo_of_walk (year d : Int) (hd : 1 ≤ d) :
    getGregorianDayNumber ⟨year, (monthWalk 1 d year).1, (monthWalk 1 d year).2⟩ =
      365 * (year - 1) + ((year - 1) / 4 - (year - 1) / 100 + (year - 1) / 400) + d := by
  obtain ⟨hw1, hw2, hw3, hw4⟩ := monthWalk_spec 1 d year (by norm_num) hd
  rw [getGregorianDayNumber_eq]
  simp only
  rw [Int.fdiv_eq_ediv _ (by norm_num : (0:Int) ≤ 4),
    Int.fdiv_eq_ediv _ (by norm_num : (0:Int) ≤ 100),
    Int.fdiv_eq_ediv _ (by norm_num : (0:Int) ≤ 400)]
  rw [addGregorianMonths_one] at hw4
  omega

theorem cycleDivs3 (a b c : Int) (ha : 0 ≤ a) (hb : 0 ≤ b) (hb3 : b ≤ 3)
    (hc : 0 ≤ c) (hc24 : c ≤ 24) :
    (400 * a + 100 * b + 4 * c) / 4 = 100 * a + 25 * b + c ∧
    (400 * a + 100 * b + 4 * c) / 100 = 4 * a + b ∧
    (400 * a + 100 * b + 4 * c) / 400 = a := by
  refine ⟨?_, ?_, ?_⟩ <;> omega

theorem cycleDivs4 (a b c s : Int) (ha : 0 ≤ a) (hb : 0 ≤ b) (hb3 : b ≤ 3)
    (hc : 0 ≤ c) (hc24 : c ≤ 24) (hs : 0 ≤ s) (hs3 : s ≤ 3) :
    (400 * a + 100 * b + 4 * c + s) / 4 = 100 * a + 25 * b + c ∧
    (400 * a + 100 * b + 4 * c + s) / 100 = 4 * a + b ∧
    (400 * a + 100 * b + 4 * c + s) / 400 = a := by
  refine ⟨?_, ?_, ?_⟩ <;> omega

theorem gregorianDayNo_leftInverse (n : Int) (hn : 1 ≤ n) :
    getGregorianDayNumber (gregorianDateFromDayNo n) = n := by
  have e1 : n.fdiv 146097 = n / 146097 := Int.fdiv_eq_ediv _ (by norm_num)
  have e2 : n.tmod 146097 = n % 146097 := Int.tmod_eq_emod (by omega) (by norm_num)
  have e3 : (n % 146097).fdiv 36524 = n % 146097 / 36524 :=
    Int.fdiv_eq_ediv _ (by norm_num)
  have h2nn : 0 ≤ n % 146097 - min (n % 146097 / 36524) 3 * 36524 := by omega
  have e4 : (n % 146097 - min (n % 146097 / 36524) 3 * 36524).fdiv 1461
      = (n % 146097 - min (n % 146097 / 36524) 3 * 36524) / 1461 :=
    Int.fdiv_eq_ediv _ (by norm_num)
  have e5 : (n % 146097 - min (n % 146097 / 36524) 3 * 36524).tmod 1461
      = (n % 146097 - min (n % 146097 / 36524) 3 * 36524) % 1461 :=
    Int.tmod_eq_emod h2nn (by norm_num)
  have e6 : ((n % 146097 - min (n % 146097 / 36524) 3 * 36524) % 1461).fdiv 365
      = (n % 146097 - min (n % 146097 / 36524) 3 * 36524) % 1461 / 365 :=
    Int.fdiv_eq_ediv _ (by norm_num)
  simp only [gregorianDateFromDayNo, e1, e2, e3, e4, e5, e6]
  set a := n / 146097 with hA
  set d1 := n % 146097 with hD1
  set b := min (d1 / 36524) 3 with hB
  set d2 := d1 - b * 36524 with hD2
  set c := d2 / 1461 with hC
  set d3 := d2 % 1461 with hD3
  set s := min (d3 / 365) 3 with hS
  set d4 := d3 - s * 365 with hD4
  have hab : 0 ≤ a ∧ 0 ≤ d1 ∧ d1 ≤ 146096 := by
    refine ⟨by rw [hA]; omega, by rw [hD1]; omega, by rw [hD1]; omega⟩
  have hbb : 0 ≤ b ∧ b ≤ 3 := by rw [hB]; omega
  have hd2b : 0 ≤ d2 ∧ d2 ≤ 36524 := by rw [hD2, hB]; omega
  have hcb : 0 ≤ c ∧ c ≤ 24 := by rw [hC]; omega
  have hd3b : 0 ≤ d3 ∧ d3 ≤ 1460 := by rw [hD3]; omega
  have hsb : 0 ≤ s ∧ s ≤ 3 := by rw [hS]; omega
  have hd4b : 0 ≤ d4 ∧ d4 ≤ 365 := by rw [hD4, hS]; omega
  have hsum2 : d1 = b * 36524 + d2 := by rw [hD2]; ring
  have hsum3 : d2 = 1461 * c + d3 := by rw [hC, hD3]; omega
  have hsum4 : d3 = s * 365 + d4 := by rw [hD4]; ring
  have hsum1 : n = 146097 * a + d1 := by rw [hA, hD1]; omega
  clear_value d4 s d3 c d2 b d1 a
  clear hB hS h2nn e1 e2 e3 e4 e5 e6 hA hD1 hC hD3
  split_ifs with h1 h2 h3 h4
  · rw [dayNumber_dec31 _ (by omega)]
    omega
  · rw [dayNumber_dec31 _ (by omega)]
    omega
  · rw [dayNumber_dec31 _ (by omega)]
    obtain ⟨q1, q2, q3⟩ := cycleDivs3 a b c (by omega) (by omega) (by omega) (by omega) (by omega)
    rw [q1, q2, q3]
    omega
  · rw [dayNumber_dec31 _ (by omega)]
    obtain ⟨q1, q2, q3⟩ := cycleDivs4 a b c s (by omega) (by omega) (by omega) (by omega)
      (by omega) (by omega) (by omega)
    rw [q1, q2, q3]
    omega
  · rw [dayNo_of_walk _ _ (by omega)]
    have hins : 1 + 400 * a + 100 * b + 4 * c + s - 1 = 400 * a + 100 * b + 4 * c + s := by
      ring
    rw [hins]
    obtain ⟨q1, q2, q3⟩ := cycleDivs4 a b c s (by omega) (by omega) (by omega) (by omega)
      (by omega) (by omega) (by omega)
    rw [q1, q2, q3]
    omega

theorem getGregorianMonthLength_twelve (year : Int) :
    getGregorianMonthLength 12 year = 31 := by
  norm_num [getGregorianMonthLength]

theorem gregorianDateFromDayNo_fields (n : Int) (hn : 1 ≤ n) :
    1 ≤ (gregorianDateFromDayNo n).year ∧
    1 ≤ (gregorianDateFromDayNo n).month ∧
    (gregorianDateFromDayNo n).month ≤ 12 ∧
    1 ≤ (gregorianDateFromDayNo n).day ∧
    (gregorianDateFromDayNo n).day ≤
      getGregorianMonthLength (gregorianDateFromDayNo n).month (gregorianDateFromDayNo n).year := by
  have e1 : n.fdiv 146097 = n / 146097 := Int.fdiv_eq_ediv _ (by norm_num)
  have e2 : n.tmod 146097 = n % 146097 := Int.tmod_eq_emod (by omega) (by norm_num)
  have e3 : (n % 146097).fdiv 36524 = n % 146097 / 36524 :=
    Int.fdiv_eq_ediv _ (by norm_num)
  have h2nn : 0 ≤ n % 146097 - min (n % 146097 / 36524) 3 * 36524 := by omega
  have e4 : (n % 146097 - min (n % 146097 / 36524) 3 * 36524).fdiv 1461
      = (n % 146097 - min (n % 146097 / 36524) 3 * 36524) / 1461 :=
    Int.fdiv_eq_ediv _ (by norm_num)
  have e5 : (n % 146097 - min (n % 146097 / 36524) 3 * 36524).tmod 1461
      = (n % 146097 - min (n % 146097 / 36524) 3 * 36524) % 1461 :=
    Int.tmod_eq_emod h2nn (by norm_num)
  have e6 : ((n % 146097 - min (n % 146097 / 36524) 3 * 36524) % 1461).fdiv 365
      = (n % 146097 - min (n % 146097 / 36524) 3 * 36524) % 1461 / 365 :=
    Int.fdiv_eq_ediv _ (by norm_num)
  simp only [gregorianDateFromDayNo, e1, e2, e3, e4, e5, e6]
  set a := n / 146097 with hA
  set d1 := n % 146097 with hD1
  set b := min (d1 / 36524) 3 with hB
  set d2 := d1 - b * 36524 with hD2
  set c := d2 / 1461 with hC
  set d3 := d2 % 1461 with hD3
  set s := min (d3 / 365) 3 with hS
  set d4 := d3 - s * 365 with hD4
  have hab : 0 ≤ a ∧ 0 ≤ d1 ∧ d1 ≤ 146096 := by
    refine ⟨by rw [hA]; omega, by rw [hD1]; omega, by rw [hD1]; omega⟩
  have hbb : 0 ≤ b ∧ b ≤ 3 := by rw [hB]; omega
  have hd2b : 0 ≤ d2 ∧ d2 ≤ 36524 := by rw [hD2, hB]; omega
  have hcb : 0 ≤ c ∧ c ≤ 24 := by rw [hC]; omega
  have hd3b : 0 ≤ d3 ∧ d3 ≤ 1460 := by rw [hD3]; omega
  have hsb : 0 ≤ s ∧ s ≤ 3 := by rw [hS]; omega
  have hd4b : 0 ≤ d4 ∧ d4 ≤ 365 := by rw [hD4, hS]; omega
  have hsum2 : d1 = b * 36524 + d2 := by rw [hD2]; ring
  have hsum3 : d2 = 1461 * c + d3 := by rw [hC, hD3]; omega
  have hsum4 : d3 = s * 365 + d4 := by rw [hD4]; ring
  have hsum1 : n = 146097 * a + d1 := by rw [hA, hD1]; omega
  clear_value d4 s d3 c d2 b d1 a
  clear hB hS h2nn e1 e2 e3 e4 e5 e6 hA hD1 hC hD3
  split_ifs with h1 h2 h3 h4 <;> dsimp only
  · exact ⟨by omega, by norm_num, by norm_num, by norm_num,
      by rw [getGregorianMonthLength_twelve]⟩
  · exact ⟨by omega, by norm_num, by norm_num, by norm_num,
      by rw [getGregorianMonthLength_twelve]⟩
  · exact ⟨by omega, by norm_num, by norm_num, by norm_num,
      by rw [getGregorianMonthLength_twelve]⟩
  · exact ⟨by omega, by norm_num, by norm_num, by norm_num,
      by rw [getGregorianMonthLength_twelve]⟩
  · obtain ⟨hw1, hw2, hw3, hw4⟩ :=
      monthWalk_spec 1 d4 (1 + 400 * a + 100 * b + 4 * c + s) (by norm_num) (by omega)
    rw [addGregorianMonths_one] at hw4
    refine ⟨by omega, hw3, ?_, hw1, hw2⟩
    by_contra hgt
    have hmono := addGregorianMonths_mono 13
      (monthWalk 1 d4 (1 + 400 * a + 100 * b + 4 * c + s)).1
      (1 + 400 * a + 100 * b + 4 * c + s) (by omega)
    rw [addGregorianMonths_thirteen] at hmono
    split_ifs at hmono <;> omega

theorem inYearOffset_bounds (m d y : Int) (hm1 : 1 ≤ m) (hm12 : m ≤ 12) (hd1 : 1 ≤ d)
    (hdlen : d ≤ getGregorianMonthLength m y) :
    1 ≤ addGregorianMonths m y + d ∧
      addGregorianMonths m y + d ≤ 365 + (if isLeapYearGr y then 1 else 0) := by
  constructor
  · have := addGregorianMonths_nonneg m y
    omega
  · have hsucc := addGregorianMonths_succ m y hm1
    have hmono := addGregorianMonths_mono (m + 1) 13 y (by omega)
    rw [addGregorianMonths_thirteen] at hmono
    omega

theorem gregorian_dayNumber_inj (g1 g2 : GregDate)
    (h1y : 1 ≤ g1.year) (h1m : 1 ≤ g1.month) (h1m12 : g1.month ≤ 12) (h1d : 1 ≤ g1.day)
    (h1len : g1.day ≤ getGregorianMonthLength g1.month g1.year)
    (h2y : 1 ≤ g2.year) (h2m : 1 ≤ g2.month) (h2m12 : g2.month ≤ 12) (h2d : 1 ≤ g2.day)
    (h2len : g2.day ≤ getGregorianMonthLength g2.month g2.year)
    (heq : getGregorianDayNumber g1 = getGregorianDayNumber g2) : g1 = g2 := by
  obtain ⟨y1, m1, d1⟩ := g1
  obtain ⟨y2, m2, d2⟩ := g2
  dsimp only at h1y h1m h1m12 h1d h1len h2y h2m h2m12 h2d h2len heq ⊢
  rw [getGregorianDayNumber_eq, getGregorianDayNumber_eq] at heq
  dsimp only at heq
  rw [Int.fdiv_eq_ediv (y1 - 1) (by norm_num : (0:Int) ≤ 4),
    Int.fdiv_eq_ediv (y1 - 1) (by norm_num : (0:Int) ≤ 100),
    Int.fdiv_eq_ediv (y1 - 1) (by norm_num : (0:Int) ≤ 400),
    Int.fdiv_eq_ediv (y2 - 1) (by norm_num : (0:Int) ≤ 4),
    Int.fdiv_eq_ediv (y2 - 1) (by norm_num : (0:Int) ≤ 100),
    Int.fdiv_eq_ediv (y2 - 1) (by norm_num : (0:Int) ≤ 400)] at heq
  have hb1 := inYearOffset_bounds m1 d1 y1 h1m h1m12 h1d h1len
  have hb2 := inYearOffset_bounds m2 d2 y2 h2m h2m12 h2d h2len
  have hstep1 := totalDays_succ y1 h1y
  have hstep2 := totalDays_succ y2 h2y
  have hTmono : ∀ u v : Int, u ≤ v →
      365 * u + u / 4 - u / 100 + u / 400 ≤ 365 * v + v / 4 - v / 100 + v / 400 := by
    intro u v huv
    omega
  have hy : y1 = y2 := by
    rcases lt_trichotomy y1 y2 with h | h | h
    · have := hTmono y1 (y2 - 1) (by omega)
      omega
    · exact h
    · have := hTmono y2 (y1 - 1) (by omega)
      omega
  subst hy
  have hm : m1 = m2 := by
    rcases lt_trichotomy m1 m2 with h | h | h
    · have hs1 := addGregorianMonths_succ m1 y1 h1m
      have hmm := addGregorianMonths_mono (m1 + 1) m2 y1 (by omega)
      omega
    · exact h
    · have hs2 := addGregorianMonths_succ m2 y1 h2m
      have hmm := addGregorianMonths_mono (m2 + 1) m1 y1 (by omega)
      omega
  subst hm
  have hd : d1 = d2 := by omega
  rw [hd]

theorem isValidEthiopianDate_iff (e : EtDate) :
    isValidEthiopianDate e = true ↔
      1000 ≤ e.Year ∧ e.Year ≤ 3000 ∧ 1 ≤ e.Month ∧ e.Month ≤ 13 ∧
        1 ≤ e.Day ∧ e.Day ≤ getEthiopianMonthLength e.Month e.Year := by
  unfold isValidEthiopianDate
  split_ifs with h1 h2 h3 h4 <;> simp <;> omega

theorem valid_facts (e : EtDate) (hv : isValidEthiopianDate e = true) :
    1000 ≤ e.Year ∧ e.Year ≤ 3000 ∧ 1 ≤ e.Month ∧ e.Month ≤ 13 ∧ 1 ≤ e.Day ∧
      e.Day ≤ 30 ∧ (e.Month ≠ 13 ∨ e.Day ≤ 6) ∧
      (e.Month ≠ 13 ∨ e.Day ≠ 6 ∨ e.Year % 4 = 3) := by
  obtain ⟨hy1, hy2, hm1, hm13, hd1, hdl⟩ := (isValidEthiopianDate_iff e).mp hv
  unfold getEthiopianMonthLength ETHIOPIAN_LEAP_YEAR_DAYS ETHIOPIAN_NORMAL_YEAR_DAYS
    ETHIOPIAN_DAYS_IN_MONTH at hdl
  by_cases h13 : e.Month = 13
  · rw [if_pos h13] at hdl
    by_cases hlp : isEthiopianLeapYear e.Year = true
    · rw [if_pos hlp] at hdl
      rw [isEthiopianLeapYear_iff _ (by omega)] at hlp
      exact ⟨hy1, hy2, hm1, hm13, hd1, by omega, by omega, Or.inr (Or.inr hlp)⟩
    · rw [if_neg hlp] at hdl
      exact ⟨hy1, hy2, hm1, hm13, hd1, by omega, by omega, by omega⟩
  · rw [if_neg h13] at hdl
    exact ⟨hy1, hy2, hm1, hm13, hd1, hdl, Or.inl h13, Or.inl h13⟩

theorem createEthiopianDate_getDayNumber (e : EtDate) (hy : 1 ≤ e.Year)
    (hm1 : 1 ≤ e.Month) (hm13 : e.Month ≤ 13) (hd1 : 1 ≤ e.Day)
    (hdl : e.Day ≤ getEthiopianMonthLength e.Month e.Year) :
    createEthiopianDate (getDayNumber e) = e := by
  obtain ⟨D, M, Y⟩ := e
  dsimp only at hy hm1 hm13 hd1 hdl ⊢
  have hlen : (M ≠ 13 ∨ D ≤ 6) ∧ (M ≠ 13 ∨ D ≠ 6 ∨ Y % 4 = 3) ∧ (M = 13 ∨ D ≤ 30) := by
    unfold getEthiopianMonthLength ETHIOPIAN_LEAP_YEAR_DAYS ETHIOPIAN_NORMAL_YEAR_DAYS
      ETHIOPIAN_DAYS_IN_MONTH at hdl
    by_cases h13 : M = 13
    · rw [if_pos h13] at hdl
      by_cases hlp : isEthiopianLeapYear Y = true
      · rw [isEthiopianLeapYear_iff _ (by omega)] at hlp
        rw [if_pos ((isEthiopianLeapYear_iff _ (by omega)).mpr hlp)] at hdl
        exact ⟨by omega, Or.inr (Or.inr hlp), Or.inl h13⟩
      · rw [if_neg hlp] at hdl
        exact ⟨by omega, by omega, Or.inl h13⟩
    · rw [if_neg h13] at hdl
      exact ⟨Or.inl h13, Or.inl h13, by omega⟩
  simp only [getDayNumber, ETHIOPIAN_DAYS_IN_MONTH]
  rw [Int.fdiv_eq_ediv Y (by norm_num : (0:Int) ≤ 4),
    Int.tmod_eq_emod (by omega : (0:Int) ≤ Y) (by norm_num : (0:Int) ≤ 4)]
  set n := Y / 4 * 1461 + Y % 4 * 365 + (M - 1) * 30 + D - 1 with hN
  have hn0 : 0 ≤ n := by rw [hN]; omega
  have f1 : n.fdiv 1461 = n / 1461 := Int.fdiv_eq_ediv _ (by norm_num)
  have f2 : n.tmod 1461 = n % 1461 := Int.tmod_eq_emod hn0 (by norm_num)
  have f3 : (n % 1461).fdiv 365 = n % 1461 / 365 := Int.fdiv_eq_ediv _ (by norm_num)
  have f4 : (n % 1461).tmod 365 = n % 1461 % 365 :=
    Int.tmod_eq_emod (by omega) (by norm_num)
  have f5 : (n % 1461 % 365).fdiv 30 = n % 1461 % 365 / 30 :=
    Int.fdiv_eq_ediv _ (by norm_num)
  have f6 : (n % 1461 % 365).tmod 30 = n % 1461 % 365 % 30 :=
    Int.tmod_eq_emod (by omega) (by norm_num)
  simp only [createEthiopianDate, f1, f2, f3, f4, f5, f6]
  clear_value n
  by_cases hsp : M = 13 ∧ D = 6
  · have hY4 : Y % 4 = 3 := by omega
    have hrem : n % 1461 = 1460 := by
      rw [hN]
      omega
    rw [if_neg (by omega)]
    simp only [EtDate.mk.injEq]
    refine ⟨by omega, by omega, by omega⟩
  · have hoff : 0 ≤ (M - 1) * 30 + D - 1 ∧ (M - 1) * 30 + D - 1 ≤ 364 := by omega
    have hrem : n % 1461 = Y % 4 * 365 + ((M - 1) * 30 + D - 1) ∧ n / 1461 = Y / 4 := by
      constructor <;> omega
    rw [if_pos (by omega)]
    simp only [EtDate.mk.injEq]
    refine ⟨by omega, by omega, by omega⟩

theorem getDayNumber_createEthiopianDate (m : Int) (hm : 0 ≤ m) :
    getDayNumber (createEthiopianDate m) = m := by
  have f1 : m.fdiv 1461 = m / 1461 := Int.fdiv_eq_ediv _ (by norm_num)
  have f2 : m.tmod 1461 = m % 1461 := Int.tmod_eq_emod hm (by norm_num)
  have f3 : (m % 1461).fdiv 365 = m % 1461 / 365 := Int.fdiv_eq_ediv _ (by norm_num)
  have f4 : (m % 1461).tmod 365 = m % 1461 % 365 :=
    Int.tmod_eq_emod (by omega) (by norm_num)
  have f5 : (m % 1461 % 365).fdiv 30 = m % 1461 % 365 / 30 :=
    Int.fdiv_eq_ediv _ (by norm_num)
  have f6 : (m % 1461 % 365).tmod 30 = m % 1461 % 365 % 30 :=
    Int.tmod_eq_emod (by omega) (by norm_num)
  simp only [createEthiopianDate, f1, f2, f3, f4, f5, f6]
  by_cases hrem : m % 1461 ≠ 1460
  · rw [if_pos hrem]
    simp only [getDayNumber, ETHIOPIAN_DAYS_IN_MONTH]
    set Y := m / 1461 * 4 + m % 1461 / 365 with hY
    have hY0 : 0 ≤ Y := by rw [hY]; omega
    rw [Int.fdiv_eq_ediv Y (by norm_num : (0:Int) ≤ 4), Int.tmod_eq_emod hY0 (by norm_num)]
    clear_value Y
    omega
  · rw [if_neg hrem]
    simp only [getDayNumber, ETHIOPIAN_DAYS_IN_MONTH]
    set Y := m / 1461 * 4 + m % 1461 / 365 - 1 with hY
    have hY0 : 0 ≤ Y := by rw [hY]; omega
    rw [Int.fdiv_eq_ediv Y (by norm_num : (0:Int) ≤ 4), Int.tmod_eq_emod hY0 (by norm_num)]
    clear_value Y
    omega

theorem getDayNumber_lt_of_lex (a b : EtDate) (hva : isValidEthiopianDate a = true)
    (hvb : isValidEthiopianDate b = true)
    (h : a.Year < b.Year ∨ (a.Year = b.Year ∧
      (a.Month < b.Month ∨ (a.Month = b.Month ∧ a.Day < b.Day)))) :
    getDayNumber a < getDayNumber b := by
  obtain ⟨ha1, ha2, ha3, ha4, ha5, ha6, ha7, ha8⟩ := valid_facts a hva
  obtain ⟨hb1, hb2, hb3, hb4, hb5, hb6, hb7, hb8⟩ := valid_facts b hvb
  simp only [getDayNumber, ETHIOPIAN_DAYS_IN_MONTH]
  rw [Int.fdiv_eq_ediv a.Year (by norm_num : (0:Int) ≤ 4),
    Int.tmod_eq_emod (by omega : (0:Int) ≤ a.Year) (by norm_num : (0:Int) ≤ 4),
    Int.fdiv_eq_ediv b.Year (by norm_num : (0:Int) ≤ 4),
    Int.tmod_eq_emod (by omega : (0:Int) ≤ b.Year) (by norm_num : (0:Int) ≤ 4)]
  omega

theorem compare_eq_neg_one_iff (a b : EtDate) :
    compareEthiopianDates a b = -1 ↔
      (a.Year < b.Year ∨ (a.Year = b.Year ∧
        (a.Month < b.Month ∨ (a.Month = b.Month ∧ a.Day < b.Day)))) := by
  unfold compareEthiopianDates
  split_ifs <;> simp <;> omega

theorem compare_eq_zero_iff (a b : EtDate) :
    compareEthiopianDates a b = 0 ↔
      (a.Year = b.Year ∧ a.Month = b.Month ∧ a.Day = b.Day) := by
  unfold compareEthiopianDates
  split_ifs <;> simp <;> omega

theorem compare_vals (a b : EtDate) :
    compareEthiopianDates a b = -1 ∨ compareEthiopianDates a b = 0 ∨
      compareEthiopianDates a b = 1 := by
  unfold compareEthiopianDates
  split_ifs <;> simp

theorem compare_antisymm (a b : EtDate) :
    compareEthiopianDates b a = -compareEthiopianDates a b := by
  unfold compareEthiopianDates
  split_ifs <;> omega

theorem addDays_eq_of_valid (e : EtDate) (n : Int) (hv : isValidEthiopianDate e = true) :
    addDaysToEthiopianDate e n =
      Except.ok (createEthiopianDate (getDayNumber e + 1 + n)) := by
  simp only [addDaysToEthiopianDate, if_pos hv]

theorem addDays_eq_of_invalid (e : EtDate) (n : Int)
    (hv : isValidEthiopianDate e = false) :
    addDaysToEthiopianDate e n = Except.error (invalidEthiopianDateMessage e) := by
  simp only [addDaysToEthiopianDate, hv, Bool.false_eq_true, if_false]

theorem addYears_eq_of_valid (e : EtDate) (n : Int) (hv : isValidEthiopianDate e = true) :
    addYearsToEthiopianDate e n =
      Except.ok
        (if e.Month = 13 ∧ e.Day = 6 ∧ ¬ (isEthiopianLeapYear (e.Year + n) = true) then
          ⟨5, 13, e.Year + n⟩
        else ⟨e.Day, e.Month, e.Year + n⟩) := by
  simp only [addYearsToEthiopianDate, if_pos hv]
  by_cases h13 : e.Month = 13 ∧ e.Day = 6
  · obtain ⟨hm, hd⟩ := h13
    rw [if_pos ⟨hm, hd⟩]
    by_cases hlp : isEthiopianLeapYear (e.Year + n) = true
    · rw [if_neg (not_not_intro hlp), if_neg (fun h => h.2.2 hlp)]
    · rw [if_pos hlp, if_pos ⟨hm, hd, hlp⟩, hm]
  · rw [if_neg h13, if_neg (fun h => h13 ⟨h.1, h.2.1⟩)]

theorem addYears_eq_of_invalid (e : EtDate) (n : Int)
    (hv : isValidEthiopianDate e = false) :
    addYearsToEthiopianDate e n = Except.error (invalidEthiopianDateMessage e) := by
  simp only [addYearsToEthiopianDate, hv, Bool.false_eq_true, if_false]

/-! ### Claim theorems -/

/-- C10: on the Ethiopian side alone the day-number encoding and decoding are
exact inverses: for every Ethiopian date with `Year ≥ 1`, `Month ∈ 1..13` and
`Day ∈ 1..getEthiopianMonthLength Month Year` (including Pagume 6 of leap
years), `createEthiopianDate (getDayNumber e) = e`. -/
theorem claim_C10_dayNumber_roundtrip (e : EtDate) (hy : 1 ≤ e.Year)
    (hm1 : 1 ≤ e.Month) (hm13 : e.Month ≤ 13) (hd1 : 1 ≤ e.Day)
    (hdl : e.Day ≤ getEthiopianMonthLength e.Month e.Year) :
    createEthiopianDate (getDayNumber e) = e :=
  createEthiopianDate_getDayNumber e hy hm1 hm13 hd1 hdl

/-- Witness for C10 at the leap-year epagomenal day Pagume 6, 2015. -/
theorem claim_C10_witness :
    (1 : Int) ≤ (⟨6, 13, 2015⟩ : EtDate).Year ∧
      (1 : Int) ≤ (⟨6, 13, 2015⟩ : EtDate).Month ∧
      (⟨6, 13, 2015⟩ : EtDate).Month ≤ 13 ∧
      (1 : Int) ≤ (⟨6, 13, 2015⟩ : EtDate).Day ∧
      (⟨6, 13, 2015⟩ : EtDate).Day ≤
        getEthiopianMonthLength (⟨6, 13, 2015⟩ : EtDate).Month (⟨6, 13, 2015⟩ : EtDate).Year ∧
      createEthiopianDate (getDayNumber ⟨6, 13, 2015⟩) = ⟨6, 13, 2015⟩ :=
  ⟨by decide, by decide, by decide, by decide, by decide,
    claim_C10_dayNumber_roundtrip ⟨6, 13, 2015⟩ (by decide) (by decide) (by decide)
      (by decide) (by decide)⟩

/-- C2 (code bug): `addDaysToEthiopianDate` computes
`createEthiopianDate (getDayNumber e + 1 + n)`; the stray `+ 1` makes adding
zero days return the NEXT day instead of the identity.  Evaluated at the
valid date 1-1-2016 with `n = 0` the result is 2-1-2016. -/
theorem claim_C2_addDays_zero_shifts :
    addDaysToEthiopianDate ⟨1, 1, 2016⟩ 0 = Except.ok ⟨2, 1, 2016⟩ ∧
      (⟨2, 1, 2016⟩ : EtDate) ≠ ⟨1, 1, 2016⟩ :=
  ⟨rfl, by decide⟩

/-- C3 counterexample: the code maps July 17, 2025 to Hamle 10, 2017, not to
the claimed Hamle 11, 2017. -/
theorem claim_C3_counterexample :
    toEthiopian ⟨2025, 7, 17⟩ ≠ (⟨11, 11, 2017⟩ : EtDate) := by
  decide

/-- C3 amended: converting the Gregorian date July 17, 2025 with `toEthiopian`
yields the Ethiopian date with Day 10, Month 11, Year 2017. -/
theorem claim_C3_amended :
    toEthiopian ⟨2025, 7, 17⟩ = (⟨10, 11, 2017⟩ : EtDate) := by
  decide

/-- C4 (code bug): `getMonthStartDay` computes `((w || 7) % 7) + 1`, which
collapses to `w + 1` on the Sunday-0 weekday `w`, i.e. a Sunday=1..Saturday=7
numbering — not the documented Monday=1..Sunday=7 numbering.  Meskerem 1,
2016 falls on Gregorian 2023-09-12, a Tuesday (`getUTCDay = 2`); the
Monday=1 remapping of a Tuesday is 2, but the code returns 3. -/
theorem claim_C4_monthStartDay_eval :
    getMonthStartDay 1 2016 = 3 ∧
      getUTCDay (toGregorian ⟨1, 1, 2016⟩) = 2 ∧
      toGregorian ⟨1, 1, 2016⟩ = ⟨2023, 9, 12⟩ := by
  refine ⟨by decide, by decide, by decide⟩

/-- C6: for a valid Ethiopian date, `addYearsToEthiopianDate` adds directly to
the year, clamping Pagume 6 to Pagume 5 exactly when the target year is not
an Ethiopian leap year. -/
theorem claim_C6_addYears_spec (e : EtDate) (n : Int)
    (hv : isValidEthiopianDate e = true) :
    addYearsToEthiopianDate e n =
      Except.ok
        (if e.Month = 13 ∧ e.Day = 6 ∧ ¬ (isEthiopianLeapYear (e.Year + n) = true) then
          ⟨5, 13, e.Year + n⟩
        else ⟨e.Day, e.Month, e.Year + n⟩) :=
  addYears_eq_of_valid e n hv

/-- Witness for C6: adding one year to Pagume 6, 2015 (leap) clamps to
Pagume 5, 2016. -/
theorem claim_C6_witness :
    isValidEthiopianDate ⟨6, 13, 2015⟩ = true ∧
      addYearsToEthiopianDate ⟨6, 13, 2015⟩ 1 = Except.ok ⟨5, 13, 2016⟩ := by
  have h := claim_C6_addYears_spec ⟨6, 13, 2015⟩ 1 (by decide)
  refine ⟨by decide, ?_⟩
  rw [h]
  rfl

/-- C9: `addDaysToEthiopianDate` and `addYearsToEthiopianDate` fail with the
invalid-input error exactly when the argument fails `isValidEthiopianDate`;
the error message is the `Invalid Ethiopian date Day-Month-Year` string built
from the offending components, and on a valid input both return a result. -/
theorem claim_C9_error_iff (e : EtDate) (n : Int) :
    (addDaysToEthiopianDate e n = Except.error (invalidEthiopianDateMessage e) ↔
      isValidEthiopianDate e = false) ∧
    (addYearsToEthiopianDate e n = Except.error (invalidEthiopianDateMessage e) ↔
      isValidEthiopianDate e = false) ∧
    (∀ msg, addDaysToEthiopianDate e n = Except.error msg →
      msg = invalidEthiopianDateMessage e) ∧
    (∀ msg, addYearsToEthiopianDate e n = Except.error msg →
      msg = invalidEthiopianDateMessage e) ∧
    (isValidEthiopianDate e = true →
      (∃ r, addDaysToEthiopianDate e n = Except.ok r) ∧
        (∃ r, addYearsToEthiopianDate e n = Except.ok r)) := by
  by_cases hv : isValidEthiopianDate e = true
  · rw [addDays_eq_of_valid e n hv, addYears_eq_of_valid e n hv]
    refine ⟨?_, ?_, ?_, ?_, fun _ => ⟨⟨_, rfl⟩, ⟨_, rfl⟩⟩⟩ <;>
      first
        | (constructor <;> intro h <;> simp_all)
        | (intro msg h; simp_all)
  · have hvf : isValidEthiopianDate e = false := by simpa using hv
    rw [addDays_eq_of_invalid e n hvf, addYears_eq_of_invalid e n hvf]
    refine ⟨by simp [hvf], by simp [hvf], ?_, ?_, ?_⟩
    · intro msg h
      exact (Except.error.inj h.symm)
    · intro msg h
      exact (Except.error.inj h.symm)
    · intro h
      rw [h] at hvf
      cases hvf

/-- Witness for C9: the invalid date 31-1-2016 produces the invalid-input
error, and the valid date 1-1-2016 produces a result. -/
theorem claim_C9_witness :
    addDaysToEthiopianDate ⟨31, 1, 2016⟩ 1 =
      Except.error (invalidEthiopianDateMessage ⟨31, 1, 2016⟩) ∧
      (∃ r, addDaysToEthiopianDate ⟨1, 1, 2016⟩ 1 = Except.ok r) :=
  ⟨(claim_C9_error_iff ⟨31, 1, 2016⟩ 1).1.mpr (by decide),
    ((claim_C9_error_iff ⟨1, 1, 2016⟩ 1).2.2.2.2 (by decide)).1⟩

/-- C7 counterexample: `addYearsToEthiopianDate` can leave the validator's
1000..3000 year window, producing a date that fails `isValidEthiopianDate`:
adding 2000 years to the valid date 1-1-2016 yields 1-1-4016, which the
validator rejects. -/
theorem claim_C7_counterexample :
    isValidEthiopianDate ⟨1, 1, 2016⟩ = true ∧
      addYearsToEthiopianDate ⟨1, 1, 2016⟩ 2000 = Except.ok ⟨1, 1, 4016⟩ ∧
      isValidEthiopianDate ⟨1, 1, 4016⟩ = false :=
  ⟨by decide, rfl, by decide⟩

/-- C7 amended: for a valid Ethiopian date and any integer `n` such that the
target year stays inside the validator's 1000..3000 window,
`addYearsToEthiopianDate` returns a date satisfying `isValidEthiopianDate`
(the month/day shape is always kept valid by the Pagume-6 clamp; only the
year-window bound can fail). -/
theorem claim_C7_amended (e : EtDate) (n : Int) (hv : isValidEthiopianDate e = true)
    (hy1 : 1000 ≤ e.Year + n) (hy2 : e.Year + n ≤ 3000) :
    ∃ r, addYearsToEthiopianDate e n = Except.ok r ∧ isValidEthiopianDate r = true := by
  obtain ⟨f1, f2, f3, f4, f5, f6, f7, f8⟩ := valid_facts e hv
  rw [addYears_eq_of_valid e n hv]
  split_ifs with h
  · refine ⟨_, rfl, ?_⟩
    rw [isValidEthiopianDate_iff]
    refine ⟨hy1, hy2, by norm_num, by norm_num, by norm_num, ?_⟩
    show (5 : Int) ≤ getEthiopianMonthLength 13 (e.Year + n)
    unfold getEthiopianMonthLength ETHIOPIAN_LEAP_YEAR_DAYS ETHIOPIAN_NORMAL_YEAR_DAYS
      ETHIOPIAN_DAYS_IN_MONTH
    split_ifs <;> norm_num
  · refine ⟨_, rfl, ?_⟩
    rw [isValidEthiopianDate_iff]
    refine ⟨hy1, hy2, f3, f4, f5, ?_⟩
    show e.Day ≤ getEthiopianMonthLength e.Month (e.Year + n)
    unfold getEthiopianMonthLength ETHIOPIAN_LEAP_YEAR_DAYS ETHIOPIAN_NORMAL_YEAR_DAYS
      ETHIOPIAN_DAYS_IN_MONTH
    by_cases h13 : e.Month = 13
    · rw [if_pos h13]
      by_cases hlp : isEthiopianLeapYear (e.Year + n) = true
      · rw [if_pos hlp]
        omega
      · rw [if_neg hlp]
        have hd6 : e.Day ≠ 6 := fun hd => h ⟨h13, hd, hlp⟩
        omega
    · rw [if_neg h13]
      omega

/-- Witness for C7 (amended): adding one year to Pagume 6, 2015 stays valid. -/
theorem claim_C7_witness :
    isValidEthiopianDate ⟨6, 13, 2015⟩ = true ∧
      (∃ r, addYearsToEthiopianDate ⟨6, 13, 2015⟩ 1 = Except.ok r ∧
        isValidEthiopianDate r = true) :=
  ⟨by decide, claim_C7_amended ⟨6, 13, 2015⟩ 1 (by decide) (by decide) (by decide)⟩

/-- C5: every zero-remainder boundary case in `gregorianDateFromDayNo`
resolves to December 31 of the year completing the cycle: positive multiples
of 146097 give December 31 of year `400·k`, and analogously after removing
100-year blocks (`b ∈ 1..3`), 4-year blocks (`c ∈ 1..24`) and single-year
blocks (`s ∈ 1..3`). -/
theorem claim_C5_zero_remainder_boundary :
    (∀ k : Int, 1 ≤ k →
      gregorianDateFromDayNo (146097 * k) = ⟨400 * k, 12, 31⟩) ∧
    (∀ a b : Int, 0 ≤ a → 1 ≤ b → b ≤ 3 →
      gregorianDateFromDayNo (146097 * a + 36524 * b) = ⟨400 * a + 100 * b, 12, 31⟩) ∧
    (∀ a b c : Int, 0 ≤ a → 0 ≤ b → b ≤ 3 → 1 ≤ c → c ≤ 24 →
      gregorianDateFromDayNo (146097 * a + 36524 * b + 1461 * c) =
        ⟨400 * a + 100 * b + 4 * c, 12, 31⟩) ∧
    (∀ a b c s : Int, 0 ≤ a → 0 ≤ b → b ≤ 3 → 0 ≤ c → c ≤ 24 → 1 ≤ s → s ≤ 3 →
      gregorianDateFromDayNo (146097 * a + 36524 * b + 1461 * c + 365 * s) =
        ⟨400 * a + 100 * b + 4 * c + s, 12, 31⟩) := by
  have main : ∀ n Y : Int, 1 ≤ n → 1 ≤ Y →
      getGregorianDayNumber ⟨Y, 12, 31⟩ = n →
      gregorianDateFromDayNo n = ⟨Y, 12, 31⟩ := by
    intro n Y hn hY htarget
    have hinv := gregorianDayNo_leftInverse n hn
    have hf := gregorianDateFromDayNo_fields n hn
    refine gregorian_dayNumber_inj _ _ hf.1 hf.2.1 hf.2.2.1 hf.2.2.2.1 hf.2.2.2.2
      ?_ ?_ ?_ ?_ ?_ ?_
    · show (1 : Int) ≤ Y
      omega
    · show (1 : Int) ≤ 12
      norm_num
    · show (12 : Int) ≤ 12
      norm_num
    · show (1 : Int) ≤ 31
      norm_num
    · show (31 : Int) ≤ getGregorianMonthLength 12 Y
      rw [getGregorianMonthLength_twelve]
    · rw [hinv, htarget]
  refine ⟨?_, ?_, ?_, ?_⟩
  · intro k hk
    refine main _ _ (by omega) (by omega) ?_
    rw [dayNumber_dec31 _ (by omega)]
    omega
  · intro a b ha hb1 hb3
    refine main _ _ (by omega) (by omega) ?_
    rw [dayNumber_dec31 _ (by omega)]
    omega
  · intro a b c ha hb0 hb3 hc1 hc24
    refine main _ _ (by omega) (by omega) ?_
    rw [dayNumber_dec31 _ (by omega)]
    obtain ⟨q1, q2, q3⟩ := cycleDivs3 a b c ha hb0 hb3 (by omega) hc24
    rw [q1, q2, q3]
    ring
  · intro a b c s ha hb0 hb3 hc0 hc24 hs1 hs3
    refine main _ _ (by omega) (by omega) ?_
    rw [dayNumber_dec31 _ (by omega)]
    obtain ⟨q1, q2, q3⟩ := cycleDivs4 a b c s ha hb0 hb3 hc0 hc24 (by omega) hs3
    rw [q1, q2, q3]
    ring

/-- Witness for C5 at the first 400-year boundary day numbers. -/
theorem claim_C5_witness :
    gregorianDateFromDayNo (146097 * 2) = ⟨400 * 2, 12, 31⟩ ∧
      gregorianDateFromDayNo (146097 * 1 + 36524 * 3) = ⟨400 * 1 + 100 * 3, 12, 31⟩ :=
  ⟨claim_C5_zero_remainder_boundary.1 2 (by norm_num),
    claim_C5_zero_remainder_boundary.2.1 1 3 (by norm_num) (by norm_num) (by norm_num)⟩

theorem totalDays_mono (u v : Int) (huv : u ≤ v) :
    365 * u + u / 4 - u / 100 + u / 400 ≤ 365 * v + v / 4 - v / 100 + v / 400 := by
  omega

/-- C1: the two public conversions are exact inverses.  For every Ethiopian
date accepted by `isValidEthiopianDate`, `toEthiopian (toGregorian e) = e`;
and for every valid proleptic-Gregorian calendar day whose year lies in
1008..3007 (the whole Gregorian years covered by Ethiopian years
1000..3000), `toGregorian (toEthiopian g) = g`. -/
theorem claim_C1_conversions_inverse (e : EtDate) (g : GregDate)
    (hve : isValidEthiopianDate e = true)
    (hgy1 : 1008 ≤ g.year) (hgy2 : g.year ≤ 3007)
    (hgm1 : 1 ≤ g.month) (hgm2 : g.month ≤ 12)
    (hgd1 : 1 ≤ g.day) (hgd2 : g.day ≤ getGregorianMonthLength g.month g.year) :
    toEthiopian (toGregorian e) = e ∧ toGregorian (toEthiopian g) = g := by
  constructor
  · obtain ⟨h1, h2, h3, h4, h5, h6⟩ := (isValidEthiopianDate_iff e).mp hve
    have hdn : 365250 ≤ getDayNumber e := by
      simp only [getDayNumber, ETHIOPIAN_DAYS_IN_MONTH]
      rw [Int.fdiv_eq_ediv e.Year (by norm_num : (0:Int) ≤ 4),
        Int.tmod_eq_emod (by omega : (0:Int) ≤ e.Year) (by norm_num : (0:Int) ≤ 4)]
      omega
    show createEthiopianDate
        (getGregorianDayNumber
          (gregorianDateFromDayNo (getDayNumber e + ETHIOPIAN_CALENDAR_OFFSET)) -
            ETHIOPIAN_CALENDAR_OFFSET) = e
    unfold ETHIOPIAN_CALENDAR_OFFSET
    rw [gregorianDayNo_leftInverse _ (by omega)]
    have harg : getDayNumber e + 2431 - 2431 = getDayNumber e := by ring
    rw [harg]
    exact createEthiopianDate_getDayNumber e (by omega) h3 h4 h5 h6
  · have hlow : 367799 ≤ getGregorianDayNumber g := by
      rw [getGregorianDayNumber_eq]
      rw [Int.fdiv_eq_ediv (g.year - 1) (by norm_num : (0:Int) ≤ 4),
        Int.fdiv_eq_ediv (g.year - 1) (by norm_num : (0:Int) ≤ 100),
        Int.fdiv_eq_ediv (g.year - 1) (by norm_num : (0:Int) ≤ 400)]
      have hmn := addGregorianMonths_nonneg g.month g.year
      have h1007 := totalDays_mono 1007 (g.year - 1) (by omega)
      omega
    show toGregorian
        (createEthiopianDate (getGregorianDayNumber g - ETHIOPIAN_CALENDAR_OFFSET)) = g
    unfold ETHIOPIAN_CALENDAR_OFFSET
    show gregorianDateFromDayNo
        (getDayNumber (createEthiopianDate (getGregorianDayNumber g - 2431)) +
          ETHIOPIAN_CALENDAR_OFFSET) = g
    unfold ETHIOPIAN_CALENDAR_OFFSET
    rw [getDayNumber_createEthiopianDate _ (by omega)]
    have harg : getGregorianDayNumber g - 2431 + 2431 = getGregorianDayNumber g := by
      ring
    rw [harg]
    have hinv := gregorianDayNo_leftInverse (getGregorianDayNumber g) (by omega)
    have hf := gregorianDateFromDayNo_fields (getGregorianDayNumber g) (by omega)
    exact gregorian_dayNumber_inj _ g hf.1 hf.2.1 hf.2.2.1 hf.2.2.2.1 hf.2.2.2.2
      (by omega) hgm1 hgm2 hgd1 hgd2 hinv

/-- Witness for C1 at Meskerem 1, 2016 and at July 17, 2025. -/
theorem claim_C1_witness :
    isValidEthiopianDate ⟨1, 1, 2016⟩ = true ∧
      toEthiopian (toGregorian ⟨1, 1, 2016⟩) = ⟨1, 1, 2016⟩ ∧
      toGregorian (toEthiopian ⟨2025, 7, 17⟩) = ⟨2025, 7, 17⟩ := by
  have h := claim_C1_conversions_inverse ⟨1, 1, 2016⟩ ⟨2025, 7, 17⟩ (by decide)
    (by decide) (by decide) (by decide) (by decide) (by decide) (by decide)
  exact ⟨by decide, h.1, h.2⟩

/-- C8: `compareEthiopianDates` returns only −1/0/1, is the lexicographic
order on (Year, Month, Day) — hence a strict total order (trichotomy,
antisymmetry via negation, transitivity, zero exactly on equal dates) — and
on valid dates it is consistent with day-number ordering. -/
theorem claim_C8_compare_spec (a b c : EtDate)
    (hva : isValidEthiopianDate a = true) (hvb : isValidEthiopianDate b = true) :
    (compareEthiopianDates a b = -1 ∨ compareEthiopianDates a b = 0 ∨
      compareEthiopianDates a b = 1) ∧
    (compareEthiopianDates a b = -1 ↔ (a.Year < b.Year ∨ (a.Year = b.Year ∧
      (a.Month < b.Month ∨ (a.Month = b.Month ∧ a.Day < b.Day))))) ∧
    (compareEthiopianDates a b = 0 ↔ a = b) ∧
    (compareEthiopianDates b a = -compareEthiopianDates a b) ∧
    ((compareEthiopianDates a b = -1 ∧ compareEthiopianDates b c = -1) →
      compareEthiopianDates a c = -1) ∧
    (compareEthiopianDates a b < 0 ↔ getDayNumber a < getDayNumber b) ∧
    (compareEthiopianDates a b = 0 ↔ getDayNumber a = getDayNumber b) := by
  refine ⟨compare_vals a b, compare_eq_neg_one_iff a b, ?_, compare_antisymm a b,
    ?_, ?_, ?_⟩
  · rw [compare_eq_zero_iff]
    obtain ⟨D1, M1, Y1⟩ := a
    obtain ⟨D2, M2, Y2⟩ := b
    simp only [EtDate.mk.injEq]
    tauto
  · rintro ⟨h1, h2⟩
    rw [compare_eq_neg_one_iff] at h1 h2 ⊢
    omega
  · constructor
    · intro hlt
      have h1 : compareEthiopianDates a b = -1 := by
        rcases compare_vals a b with h | h | h <;> omega
      rw [compare_eq_neg_one_iff] at h1
      exact getDayNumber_lt_of_lex a b hva hvb h1
    · intro hlt
      rcases compare_vals a b with h | h | h
      · omega
      · exfalso
        rw [compare_eq_zero_iff] at h
        obtain ⟨D1, M1, Y1⟩ := a
        obtain ⟨D2, M2, Y2⟩ := b
        dsimp only at h
        obtain ⟨h1, h2, h3⟩ := h
        subst h1
        subst h2
        subst h3
        omega
      · exfalso
        have hanti := compare_antisymm a b
        have hba : compareEthiopianDates b a = -1 := by omega
        rw [compare_eq_neg_one_iff] at hba
        have := getDayNumber_lt_of_lex b a hvb hva hba
        omega
  · constructor
    · intro h0
      rw [compare_eq_zero_iff] at h0
      obtain ⟨D1, M1, Y1⟩ := a
      obtain ⟨D2, M2, Y2⟩ := b
      dsimp only at h0
      obtain ⟨h1, h2, h3⟩ := h0
      subst h1
      subst h2
      subst h3
      rfl
    · intro heqd
      rcases compare_vals a b with h | h | h
      · exfalso
        rw [compare_eq_neg_one_iff] at h
        have := getDayNumber_lt_of_lex a b hva hvb h
        omega
      · exact h
      · exfalso
        have hanti := compare_antisymm a b
        have hba : compareEthiopianDates b a = -1 := by omega
        rw [compare_eq_neg_one_iff] at hba
        have := getDayNumber_lt_of_lex b a hvb hva hba
        omega

/-- Witness for C8 at 1-1-2016 and 2-1-2016. -/
theorem claim_C8_witness :
    compareEthiopianDates ⟨1, 1, 2016⟩ ⟨2, 1, 2016⟩ = -1 ∧
      getDayNumber ⟨1, 1, 2016⟩ < getDayNumber ⟨2, 1, 2016⟩ := by
  have h := claim_C8_compare_spec ⟨1, 1, 2016⟩ ⟨2, 1, 2016⟩ ⟨3, 1, 2016⟩
    (by decide) (by decide)
  exact ⟨by decide, (h.2.2.2.2.2.1).mp (by decide)⟩
